import Mathlib

/-!
Verification development for the TermNest SSH session engine.

The definitions below are a shallow embedding of the engine's code:
`src-tauri/src/ssh_new.rs` (session registry, connection handles, the
reader loop and the input coalescer), the public-key authentication
fallback chain of `src-tauri/src/ssh.rs` (`SshManager::connect`), and the
directory-listing sort of `src-tauri/src/ssh/sftp.rs`
(`SftpClient::list_directory`).  Machine details that the properties do
not depend on (thread scheduling, the ssh2 FFI, Tauri event plumbing)
are made explicit as data: byte buffers are `List Nat`, wall-clock
instants are `Nat` milliseconds, and each worker loop is a function from
the sequence of its inputs to the sequence of its effects.
-/

namespace TermNest

/-! ### Connection handles (`SshConnection` in ssh_new.rs, lines 37-46) -/

/-- A worker thread's join handle.  The engine only stores, takes and
joins handles, so their identity is all we track. -/
structure JoinHandle where
  tid : Nat
deriving DecidableEq, Repr

/-- State of one `SshConnection` (ssh_new.rs lines 37-46): the session
identifier, three shutdown flags (one per pump) and the three optional
worker handles (`Option<JoinHandle>` fields, `take`n when joined). -/
structure SshConnection where
  session_id : String
  reader_shutdown : Bool
  writer_shutdown : Bool
  input_shutdown : Bool
  reader_handle : Option JoinHandle
  writer_handle : Option JoinHandle
  input_handle : Option JoinHandle
deriving DecidableEq, Repr

/-- `SshConnection::close` (ssh_new.rs lines 208-234): set the three
shutdown flags, then `take()` and join each worker handle in the order
reader, writer, input.  Returns the updated handle state together with
the list of handles actually joined by this call. -/
def SshConnection.close (c : SshConnection) : SshConnection × List JoinHandle :=
  let c1 : SshConnection :=
    { c with reader_shutdown := true, writer_shutdown := true, input_shutdown := true }
  let p1 : SshConnection × List JoinHandle :=
    match c1.reader_handle with
    | some h => ({ c1 with reader_handle := none }, [h])
    | none => (c1, [])
  let p2 : SshConnection × List JoinHandle :=
    match p1.1.writer_handle with
    | some h => ({ p1.1 with writer_handle := none }, [h])
    | none => (p1.1, [])
  let p3 : SshConnection × List JoinHandle :=
    match p2.1.input_handle with
    | some h => ({ p2.1 with input_handle := none }, [h])
    | none => (p2.1, [])
  (p3.1, p1.2 ++ p2.2 ++ p3.2)

/-! ### Session registry (`SshManager` in ssh_new.rs, lines 243-361)

The registry is an `Arc<Mutex<HashMap<String, SshConnection>>>`; we model
the map as an association list with `HashMap`-faithful operations
(`get`, `insert` replacing an existing binding, `remove` returning the
removed value). -/

/-- `HashMap::get`. -/
def mapGet (k : String) : List (String × β) → Option β
  | [] => none
  | (k', v) :: rest => if k = k' then some v else mapGet k rest

/-- `HashMap::insert`: replaces the binding if the key is present,
appends it otherwise. -/
def mapInsert (k : String) (v : β) : List (String × β) → List (String × β)
  | [] => [(k, v)]
  | (k', v') :: rest => if k = k' then (k, v) :: rest else (k', v') :: mapInsert k v rest

/-- `HashMap::remove`: returns the removed value (if any) and the
remaining map. -/
def mapRemove (k : String) : List (String × β) → Option β × List (String × β)
  | [] => (none, [])
  | (k', v) :: rest =>
    if k = k' then (some v, rest)
    else
      let p := mapRemove k rest
      (p.1, (k', v) :: p.2)

/-- Registry update performed by `SshManager::connect` (ssh_new.rs lines
324-331) once the transport, authentication and channel setup have
succeeded: an unconditional `connections.insert(session_id, connection)`
followed by `Ok(())`.  There is no presence check. -/
def SshManager.connectStore (connections : List (String × SshConnection))
    (session_id : String) (connection : SshConnection) :
    Except String Unit × List (String × SshConnection) :=
  (Except.ok (), mapInsert session_id connection connections)

/-- `SshManager::disconnect` (ssh_new.rs lines 345-355): `remove` the
entry; on a hit, close the removed connection and return `Ok`; on a
miss, return the "Session not found" error.  The third component records
the close performed on the removed handle, if any. -/
def SshManager.disconnect (connections : List (String × SshConnection))
    (session_id : String) :
    Except String Unit × List (String × SshConnection) ×
      Option (SshConnection × List JoinHandle) :=
  match mapRemove session_id connections with
  | (some conn, rest) => (Except.ok (), rest, some conn.close)
  | (none, rest) => (Except.error ("Session not found: " ++ session_id), rest, none)

/-! ### Input coalescer (ssh_new.rs lines 146-184)

The coalescer thread loops: drain every fragment currently queued on
`input_rx` into a growing buffer, then flush the buffer to the writer
queue when the source's condition (line 169) holds, then sleep 10 ms.
We model one loop iteration as a `Tick` carrying the fragments drained
in that iteration and the value `Instant::now()` takes there, in
milliseconds.  Bytes are `Nat`s; a fragment is its byte list (Rust
`String::push_str` and `into_bytes` are byte-level concatenation and
identity respectively). -/

/-- `flush_interval` (ssh_new.rs line 153), in milliseconds. -/
def flushInterval : Nat := 100

/-- Size threshold from `buffer.len() > 1024` (ssh_new.rs line 169). -/
def sizeThreshold : Nat := 1024

/-- Mutable state of the coalescer loop: accumulated `buffer` bytes and
`last_flush`, the instant (ms) of the last flush. -/
structure CoalescerState where
  buffer : List Nat
  last_flush : Nat
deriving DecidableEq, Repr

/-- One iteration of the coalescer loop: the fragments drained from the
input queue this iteration (in arrival order), and the current instant. -/
structure Tick where
  arrivals : List (List Nat)
  now : Nat
deriving DecidableEq, Repr

/-- The flush condition exactly as the source writes it (ssh_new.rs line
169): `(!buffer.is_empty() && now.duration_since(last_flush) >
flush_interval) || (received_any && buffer.len() > 1024)`, where `buffer`
is the post-drain buffer and `received_any` says this iteration drained
at least one fragment. -/
def codeFlushCond (st : CoalescerState) (t : Tick) : Bool :=
  let buffer := st.buffer ++ t.arrivals.flatten
  (!buffer.isEmpty && decide (t.now - st.last_flush > flushInterval))
    || (!t.arrivals.isEmpty && decide (buffer.length > sizeThreshold))

/-- The flush condition as the specification states it: the buffer is
non-empty and more than one flush interval has elapsed since the last
flush, or the buffer has grown past the size threshold regardless of
elapsed time. -/
def specFlushCond (st : CoalescerState) (t : Tick) : Bool :=
  let buffer := st.buffer ++ t.arrivals.flatten
  (!buffer.isEmpty && decide (t.now - st.last_flush > flushInterval))
    || decide (buffer.length > sizeThreshold)

/-- One iteration of the coalescer loop body (ssh_new.rs lines 155-179):
drain the arrivals into the buffer, then, if the source's flush
condition holds, hand the whole buffer to the writer queue as one batch,
clear it and record the flush instant.  Returns the new state and the
batches (zero or one) sent this iteration. -/
def coalescerStep (st : CoalescerState) (t : Tick) : CoalescerState × List (List Nat) :=
  let buffer := st.buffer ++ t.arrivals.flatten
  if codeFlushCond st t then
    (⟨[], t.now⟩, [buffer])
  else
    (⟨buffer, st.last_flush⟩, [])

/-- Run the coalescer loop over a sequence of iterations, collecting all
batches handed to the writer queue in order. -/
def coalescerRun (st : CoalescerState) : List Tick → CoalescerState × List (List Nat)
  | [] => (st, [])
  | t :: ts =>
    let p := coalescerStep st t
    let q := coalescerRun p.1 ts
    (q.1, p.2 ++ q.2)

/-- The flush performed after the loop exits (ssh_new.rs lines 180-184):
`if !buffer.is_empty() { input_writer_tx.send(buffer.into_bytes()) }`. -/
def coalescerShutdownFlush (st : CoalescerState) : List (List Nat) :=
  if st.buffer.isEmpty then [] else [st.buffer]

/-- Every batch the coalescer worker hands to the writer queue over its
whole life: those sent by loop iterations, then the shutdown flush.
`t0` is the instant the worker starts (the initial `last_flush`). -/
def coalescerOutputs (t0 : Nat) (ticks : List Tick) : List (List Nat) :=
  let p := coalescerRun ⟨[], t0⟩ ticks
  p.2 ++ coalescerShutdownFlush p.1

/-- The fragments drained by some loop iteration, in order.  `send_input`
(ssh_new.rs lines 198-206) forwards each fragment unchanged to the
coalescer's queue, so these are the `send_input` arguments the worker
got to drain; fragments still queued undrained when the worker observes
the shutdown flag are not among them — they are accounted separately
(see `submittedConcat`). -/
def fragments (ticks : List Tick) : List (List Nat) :=
  ticks.flatMap Tick.arrivals

/-- Number of fragments submitted over a run. -/
def fragCount (ticks : List Tick) : Nat := (fragments ticks).length

/-- Concatenation of all drained fragments, in submission order. -/
def fragConcat (ticks : List Tick) : List Nat := (fragments ticks).flatten

/-- Concatenation of everything submitted via `send_input` over the
worker's life: the fragments drained by some loop iteration, followed by
`pending`, the fragments still queued in `input_rx` — submitted but not
yet drained — at the moment the worker observes the shutdown flag at the
top of its loop (ssh_new.rs line 156) and breaks.  The exit path (lines
180-184) reads only `buffer`, never `input_rx`, so `pending` appears in
no model output: it is dropped with the receiver. -/
def submittedConcat (ticks : List Tick) (pending : List (List Nat)) : List Nat :=
  fragConcat ticks ++ pending.flatten

/-! ### Reader loop (ssh_new.rs lines 64-111)

Each iteration performs one `channel.read` under the shared lock.  We
model the sequence of read results the channel would hand out and the
reader's visible effect at each: emit a `terminal-data` event, sleep and
retry, or break out of the loop. -/

/-- Kind of a failed read: `std::io::ErrorKind::WouldBlock`, or any
other I/O error. -/
inductive IoErrorKind
  | wouldBlock
  | other
deriving DecidableEq, Repr

/-- Result of one `channel.read(&mut buffer)` call. -/
inductive ReadResult
  | ok (data : List Nat)
  | ioErr (k : IoErrorKind)
deriving DecidableEq, Repr

/-- The reader's visible effect for one iteration: emit the chunk as a
`terminal-data` event (the `Ok(n)` arm, ssh_new.rs lines 85-97), sleep
10 ms and retry (the `WouldBlock` arm, lines 99-103), or stop the loop
(`Ok(0)` at lines 80-84, or any other error at lines 104-105). -/
inductive ReaderAction
  | emitData (d : List Nat)
  | sleepRetry
  | stop
deriving DecidableEq, Repr

/-- Dispatch on one read result, exactly as the source's `match`
(ssh_new.rs lines 79-107). -/
def readerStep (r : ReadResult) : ReaderAction :=
  match r with
  | .ok [] => .stop
  | .ok d => .emitData d
  | .ioErr .wouldBlock => .sleepRetry
  | .ioErr .other => .stop

/-- Run the reader loop over the pending read results (shutdown flag
clear throughout): process results until one makes the loop break. -/
def readerRun : List ReadResult → List ReaderAction
  | [] => []
  | r :: rs =>
    match readerStep r with
    | .stop => [ReaderAction.stop]
    | a => a :: readerRun rs

/-- The `event_type` strings of the events the reader emits over a run.
The reader's only emission is `TerminalEvent { event_type: "data", .. }`
(ssh_new.rs lines 88-96); in particular it never emits a status event. -/
def readerEmittedEventTypes (rs : List ReadResult) : List String :=
  (readerRun rs).filterMap fun a =>
    match a with
    | ReaderAction.emitData _ => some "data"
    | _ => none

/-! ### Authenticator fallback chain (ssh.rs, `SshManager::connect`)

The `AuthMethod::PublicKey` arm of `SshManager::connect` in
`src-tauri/src/ssh.rs` (lines 119-359) drives an ordered chain of ssh2
calls.  We model the environment as two oracles: which paths exist on
disk, and which authentication attempts the server accepts; the chain is
then a pure function returning the ordered trail of attempts made and
whether authentication succeeded. -/

/-- One ssh2 authentication attempt: `userauth_pubkey_file(user, pubkey,
privkey, passphrase)` (the username is fixed for a whole connect, so we
omit it), or `userauth_agent(user)`. -/
inductive AuthAttempt
  | pubkeyFile (pubkey : Option String) (privkey : String) (passphrase : Option String)
  | agent
deriving DecidableEq, Repr

/-- The connect attempt's environment: file existence on disk and the
outcome of each possible authentication attempt. -/
structure AuthEnv where
  fileExists : String → Bool
  attemptOk : AuthAttempt → Bool

/-- Home-directory expansion of the configured key path (ssh.rs lines
121-126): when the path starts with `~/`, replace that prefix by
`HOME/`; otherwise keep it.  Phrased on the character list so it
computes by kernel reduction (`~` and `/` are ASCII, so character-level
and byte-level prefix tests agree). -/
def expandTilde (home keyPath : String) : String :=
  match keyPath.data with
  | '~' :: '/' :: rest => home ++ "/" ++ String.mk rest
  | _ => keyPath

/-- Rust `str::contains` as a substring test. -/
def strContainsSub (s pat : String) : Bool :=
  (s.splitOn pat).length != 1

/-- Ed25519 branch (ssh.rs lines 135-195), for an existing key file `p`:
try `(Some(p ++ ".pub"), p, None)`, then `(None, p, Some(""))`. -/
def ed25519Attempts (env : AuthEnv) (p : String) : List AuthAttempt × Bool :=
  let a1 := AuthAttempt.pubkeyFile (some (p ++ ".pub")) p none
  if env.attemptOk a1 then ([a1], true)
  else
    let a2 := AuthAttempt.pubkeyFile none p (some "")
    ([a1, a2], env.attemptOk a2)

/-- Standard-key branch (ssh.rs lines 196-278), for an existing key file
`p`: try `(Some(p ++ ".pub"), p, None)` only when the `.pub` file
exists, then `(None, p, None)`, then `(None, p, Some(""))`, stopping at
the first success. -/
def standardAttempts (env : AuthEnv) (p : String) : List AuthAttempt × Bool :=
  let tr0 : List AuthAttempt :=
    if env.fileExists (p ++ ".pub") then [AuthAttempt.pubkeyFile (some (p ++ ".pub")) p none]
    else []
  if tr0.any env.attemptOk then (tr0, true)
  else
    let a2 := AuthAttempt.pubkeyFile none p none
    if env.attemptOk a2 then (tr0 ++ [a2], true)
    else
      let a3 := AuthAttempt.pubkeyFile none p (some "")
      (tr0 ++ [a2, a3], env.attemptOk a3)

/-- Fallback key loop (ssh.rs lines 322-348): walk the candidate paths
in order, skip those that do not exist on disk, attempt
`(None, key, None)` for each existing one, and stop at the first
success. -/
def tryFallbackKeys (env : AuthEnv) : List String → List AuthAttempt × Bool
  | [] => ([], false)
  | k :: ks =>
    if env.fileExists k then
      let a := AuthAttempt.pubkeyFile none k none
      if env.attemptOk a then ([a], true)
      else
        let p := tryFallbackKeys env ks
        (a :: p.1, p.2)
    else tryFallbackKeys env ks

/-- The conventional key locations under the home directory, in the
source's (non-Windows) priority order (ssh.rs lines 315-320). -/
def conventionalKeys (home : String) : List String :=
  [home ++ "/.ssh/id_rsa", home ++ "/.ssh/id_ecdsa", home ++ "/.ssh/id_ed25519"]

/-- The whole `AuthMethod::PublicKey` arm of `SshManager::connect`
(ssh.rs lines 119-359): expand the configured path; if it exists, run
the Ed25519 or standard attempt ladder on it; if still unauthenticated,
try the SSH agent (lines 284-300); if still unauthenticated, walk the
conventional key paths (lines 302-349); if still unauthenticated, fail
(lines 351-359).  Returns the ordered attempt trail and the overall
outcome. -/
def publicKeyAuth (env : AuthEnv) (home keyPath : String) : List AuthAttempt × Bool :=
  let expanded := expandTilde home keyPath
  let p1 : List AuthAttempt × Bool :=
    if env.fileExists expanded then
      if strContainsSub expanded "id_ed25519" then ed25519Attempts env expanded
      else standardAttempts env expanded
    else ([], false)
  if p1.2 then p1
  else if env.attemptOk AuthAttempt.agent then (p1.1 ++ [AuthAttempt.agent], true)
  else
    let p2 := tryFallbackKeys env (conventionalKeys home)
    (p1.1 ++ AuthAttempt.agent :: p2.1, p2.2)

/-! ### SFTP directory listing sort (ssh/sftp.rs, `list_directory`)

`list_directory` collects the entries and then sorts them with
`files.sort_by(comparator)` (sftp.rs lines 60-67).  Rust's `sort_by` is
a stable sort ascending in the comparator; we embed it as Mathlib's
stable `List.insertionSort` over the relation "comparator result is not
`Greater`", which agrees with any stable comparator sort on the
properties proved here (sortedness and permutation). -/

/-- The fields of `FileInfo` (sftp.rs lines 7-15). -/
structure FileInfo where
  name : String
  path : String
  is_directory : Bool
  size : Nat
  modified : Option String
  permissions : Option String
deriving DecidableEq, Repr

/-- Rust `str::cmp`: lexicographic three-way comparison. -/
def strCmp (a b : String) : Ordering :=
  if a < b then Ordering.lt else if a = b then Ordering.eq else Ordering.gt

/-- The comparator passed to `sort_by` (sftp.rs lines 60-67):
directories first, then by name. -/
def fileCmp (a b : FileInfo) : Ordering :=
  match a.is_directory, b.is_directory with
  | true, false => Ordering.lt
  | false, true => Ordering.gt
  | _, _ => strCmp a.name b.name

/-- The weak order induced by the comparator: `a` may come no later than
`b` when the comparator does not say `Greater`. -/
def fileLe (a b : FileInfo) : Prop := fileCmp a b ≠ Ordering.gt

instance : DecidableRel fileLe := fun a b =>
  inferInstanceAs (Decidable (fileCmp a b ≠ Ordering.gt))

/-- The sort performed by `list_directory` on the collected entries. -/
def sortEntries (files : List FileInfo) : List FileInfo :=
  List.insertionSort fileLe files

/-! ## Theorems -/

/-! ### Registry and connection lifecycle -/

/-- A concrete live connection stored under identifier `"s1"`. -/
def connLive : SshConnection :=
  ⟨"s1", false, false, false, some ⟨1⟩, some ⟨2⟩, some ⟨3⟩⟩

/-- A distinct second connection produced by a second `connect` on the
same identifier. -/
def connNew : SshConnection :=
  ⟨"s1", false, false, false, some ⟨4⟩, some ⟨5⟩, some ⟨6⟩⟩

/-- C1: the claim says a second `connect` on an identifier already in
the registry fails with an "already connected" error and leaves the
live entry unchanged.  The code (`SshManager::connect`, ssh_new.rs lines
324-331) performs an unconditional `HashMap::insert` and returns `Ok`:
evaluated at a registry already holding `"s1"`, the second connect
succeeds and silently replaces the live handle.  The specification
itself flags this overwrite as a defect of the source (§3, §9), so the
code, not the claim, is wrong. -/
theorem connect_replaces_live_entry :
    mapGet "s1" [("s1", connLive)] = some connLive ∧
    connLive ≠ connNew ∧
    SshManager.connectStore [("s1", connLive)] "s1" connNew
      = (Except.ok (), [("s1", connNew)]) := by
  refine ⟨rfl, by decide, rfl⟩

/-- Removing an absent key is the identity on the map. -/
theorem mapRemove_of_get_none (k : String) (l : List (String × β))
    (h : mapGet k l = none) : mapRemove k l = (none, l) := by
  induction l with
  | nil => rfl
  | cons p rest ih =>
    obtain ⟨k', v⟩ := p
    by_cases hk : k = k'
    · simp [mapGet, hk] at h
    · simp only [mapGet, if_neg hk] at h
      simp [mapRemove, if_neg hk, ih h]

/-- C9: for an identifier not present in the registry, `disconnect`
returns the "Session not found" error and leaves the registry map
unchanged: no entry is added, removed or modified, and no connection is
closed (`SshManager::disconnect`, ssh_new.rs lines 345-355). -/
theorem disconnect_not_found (connections : List (String × SshConnection))
    (session_id : String) (h : mapGet session_id connections = none) :
    SshManager.disconnect connections session_id
      = (Except.error ("Session not found: " ++ session_id), connections, none) := by
  unfold SshManager.disconnect
  rw [mapRemove_of_get_none session_id connections h]

/-- Witness for C9: concrete registry holding only `"s1"`, disconnect of
the absent `"s2"`. -/
theorem disconnect_not_found_witness :
    SshManager.disconnect [("s1", connLive)] "s2"
      = (Except.error ("Session not found: " ++ "s2"), [("s1", connLive)], none) :=
  disconnect_not_found [("s1", connLive)] "s2" (by decide)

/-- C8: closing a `ConnectionHandle` is idempotent.  The first `close`
sets the three shutdown flags and `take`s (joins) the three worker
handles; a second `close` on the resulting state joins no worker thread
(its joined-handle list is empty) and leaves the handle's state exactly
as the first close left it (`SshConnection::close`, ssh_new.rs lines
208-234; `Drop` calls the same `close`, lines 237-241). -/
theorem close_idempotent (c : SshConnection) :
    (c.close.1).close = (c.close.1, []) := by
  rcases c with ⟨id, r, w, i, rh, wh, ih⟩
  cases rh <;> cases wh <;> cases ih <;> rfl

/-! ### Reader loop -/

/-- C6: in the reader loop, a would-block read is never treated as a
failure: the reader sleeps about 10 ms and retries, continuing with the
subsequent reads exactly as if the would-block result had not occurred;
every other I/O error stops the reader loop at once (ssh_new.rs lines
98-106). -/
theorem reader_would_block_retries (rs : List ReadResult) :
    readerRun (ReadResult.ioErr IoErrorKind.wouldBlock :: rs)
      = ReaderAction.sleepRetry :: readerRun rs ∧
    readerRun (ReadResult.ioErr IoErrorKind.other :: rs) = [ReaderAction.stop] :=
  ⟨rfl, rfl⟩

/-- C5: the claim says a zero-byte read (remote EOF) stops the reader
loop and transitions the session's status to `Disconnected`.  Evaluated
at the failing input (an EOF read followed by a pending data read), the
code does stop the loop — the later read is never processed — but emits
no event at all on that path (ssh_new.rs lines 80-84 only `break`): the
reader has no status-marking effect anywhere, so nothing ever marks the
session `Disconnected`; the registry entry, and hence the derived
status, stay as they were until an explicit `disconnect`.  The
specification's own design notes (§4.4, §9 "status conflation") call for
exactly the missing update, so the code, not the claim, is wrong. -/
theorem reader_eof_stops_without_status_change :
    readerRun [ReadResult.ok [], ReadResult.ok [7]] = [ReaderAction.stop] ∧
    readerEmittedEventTypes [ReadResult.ok [], ReadResult.ok [7]] = [] := by
  decide

/-! ### Input coalescer -/

/-- Unfolding of `fragConcat` over a first iteration. -/
theorem fragConcat_cons (t : Tick) (ts : List Tick) :
    fragConcat (t :: ts) = t.arrivals.flatten ++ fragConcat ts := by
  simp [fragConcat, fragments]

/-- One coalescer iteration conserves bytes: batches sent plus the bytes
left in the buffer are the bytes that were in the buffer plus the bytes
drained. -/
theorem coalescerStep_concat (st : CoalescerState) (t : Tick) :
    ((coalescerStep st t).2).flatten ++ (coalescerStep st t).1.buffer
      = st.buffer ++ t.arrivals.flatten := by
  unfold coalescerStep
  split <;> simp

/-- The coalescer loop conserves bytes: everything sent plus the final
buffer content equals the initial buffer content plus everything
drained, in order. -/
theorem coalescerRun_concat (st : CoalescerState) (ticks : List Tick) :
    ((coalescerRun st ticks).2).flatten ++ (coalescerRun st ticks).1.buffer
      = st.buffer ++ fragConcat ticks := by
  induction ticks generalizing st with
  | nil => simp [coalescerRun, fragConcat, fragments]
  | cons t ts ih =>
    have hstep := coalescerStep_concat st t
    simp only [coalescerRun, List.flatten_append, List.append_assoc, fragConcat_cons]
    rw [ih (coalescerStep st t).1, ← List.append_assoc, hstep, List.append_assoc]

/-- Over its whole life the coalescer hands the writer queue exactly the
submitted bytes, in order. -/
theorem coalescerOutputs_flatten (t0 : Nat) (ticks : List Tick) :
    (coalescerOutputs t0 ticks).flatten = fragConcat ticks := by
  have h := coalescerRun_concat ⟨[], t0⟩ ticks
  simp only [coalescerOutputs, coalescerShutdownFlush, List.flatten_append]
  rcases hbuf : (coalescerRun ⟨[], t0⟩ ticks).1.buffer with _ | ⟨x, xs⟩ <;>
    simp_all

/-- Counterexample to C4 as stated: the claim's conclusion "input
submitted before disconnect is never silently dropped" fails.  One
iteration drains the fragment `[97]` (no flush yet, 10 ms into the
interval); then `close` sets the shutdown flag while the fragment `[98]`
— already accepted by `send_input` — is still queued in `input_rx`.  The
worker observes the flag at the top of its loop (ssh_new.rs line 156)
and breaks without a final drain, and the exit flush (lines 180-184)
sends only `buffer`: the writer queue receives `[97]` while the
submitted bytes were `[97, 98]` — the queued fragment is silently
dropped. -/
theorem coalescer_shutdown_drop_cex :
    coalescerOutputs 0 [⟨[[97]], 10⟩] = [[97]] ∧
    submittedConcat [⟨[[97]], 10⟩] [[98]] = [97, 98] ∧
    (coalescerOutputs 0 [⟨[[97]], 10⟩]).flatten
      ≠ submittedConcat [⟨[[97]], 10⟩] [[98]] := by
  decide

/-- C4 (amended): on shutdown, a non-empty remainder in the coalescer's
buffer is flushed as exactly one extra batch before the worker exits and
an empty remainder adds no batch, so input the worker drained into its
buffer is never silently dropped: the bytes handed to the writer queue
over the worker's whole life, the shutdown flush included, are exactly
the submitted bytes minus precisely the fragments still queued undrained
in `input_rx` when the worker observes the shutdown flag — those, the
exit path (ssh_new.rs lines 180-184, which reads only `buffer`) drops
(see the counterexample). -/
theorem coalescer_shutdown_flush_once (t0 : Nat) (ticks : List Tick)
    (pending : List (List Nat)) :
    (coalescerShutdownFlush (coalescerRun ⟨[], t0⟩ ticks).1).length
      = (if (coalescerRun ⟨[], t0⟩ ticks).1.buffer.isEmpty then 0 else 1) ∧
    (coalescerOutputs t0 ticks).flatten ++ pending.flatten
      = submittedConcat ticks pending := by
  constructor
  · unfold coalescerShutdownFlush
    split <;> rfl
  · rw [coalescerOutputs_flatten t0 ticks, submittedConcat]

/-- The iterations inside one flush interval of the start, with all
drained bytes fitting under the size threshold, flush nothing: the bytes
just accumulate. -/
theorem coalescerRun_window (t0 : Nat) (buf : List Nat) (ticks : List Tick)
    (hw : ∀ t ∈ ticks, t.now ≤ t0 + flushInterval)
    (hs : buf.length + (fragConcat ticks).length ≤ sizeThreshold) :
    coalescerRun ⟨buf, t0⟩ ticks = (⟨buf ++ fragConcat ticks, t0⟩, []) := by
  induction ticks generalizing buf with
  | nil => simp [coalescerRun, fragConcat, fragments]
  | cons t ts ih =>
    have hlen : (fragConcat (t :: ts)).length
        = t.arrivals.flatten.length + (fragConcat ts).length := by
      simp [fragConcat_cons]
    have h1 : ¬ (t.now - t0 > flushInterval) := by
      have := hw t (List.mem_cons_self t ts)
      omega
    have h2 : ¬ ((buf ++ t.arrivals.flatten).length > sizeThreshold) := by
      simp only [List.length_append]
      omega
    have hcond : codeFlushCond ⟨buf, t0⟩ t = false := by
      simp [codeFlushCond, h1]
      intro _
      simpa using h2
    have hstep : coalescerStep ⟨buf, t0⟩ t
        = (⟨buf ++ t.arrivals.flatten, t0⟩, []) := by
      simp [coalescerStep, hcond]
    have ihs := ih (buf ++ t.arrivals.flatten)
      (fun u hu => hw u (List.mem_cons_of_mem t hu))
      (by simp only [List.length_append]; omega)
    simp [coalescerRun, hstep, ihs, fragConcat_cons]

/-- Iterations that drain nothing, starting from an empty buffer, flush
nothing and change nothing. -/
theorem coalescerRun_empty_quiet (lf : Nat) (ticks : List Tick)
    (hq : ∀ t ∈ ticks, t.arrivals = []) :
    coalescerRun ⟨[], lf⟩ ticks = (⟨[], lf⟩, []) := by
  induction ticks with
  | nil => rfl
  | cons t ts ih =>
    have ha : t.arrivals = [] := hq t (List.mem_cons_self t ts)
    have hcond : codeFlushCond ⟨[], lf⟩ t = false := by
      simp [codeFlushCond, ha]
    simp [coalescerRun, coalescerStep, hcond, ha,
      ih (fun u hu => hq u (List.mem_cons_of_mem t hu))]

/-- After submissions stop, the whole rest of the worker's life —
including the shutdown flush — produces at most one more batch. -/
theorem coalescerRun_quiet_le_one (buf : List Nat) (lf : Nat) (ticks : List Tick)
    (hq : ∀ t ∈ ticks, t.arrivals = []) :
    ((coalescerRun ⟨buf, lf⟩ ticks).2).length
      + (coalescerShutdownFlush (coalescerRun ⟨buf, lf⟩ ticks).1).length ≤ 1 := by
  induction ticks generalizing buf lf with
  | nil =>
    simp only [coalescerRun, coalescerShutdownFlush, List.length_nil]
    split <;> simp
  | cons t ts ih =>
    have ha : t.arrivals = [] := hq t (List.mem_cons_self t ts)
    have hq' : ∀ u ∈ ts, u.arrivals = [] := fun u hu => hq u (List.mem_cons_of_mem t hu)
    cases hcond : codeFlushCond ⟨buf, lf⟩ t with
    | false =>
      have hstep : coalescerStep ⟨buf, lf⟩ t = (⟨buf, lf⟩, []) := by
        simp [coalescerStep, hcond, ha]
      simp only [coalescerRun, hstep, List.nil_append]
      exact ih buf lf hq'
    | true =>
      have hstep : coalescerStep ⟨buf, lf⟩ t = (⟨[], t.now⟩, [buf]) := by
        simp [coalescerStep, hcond, ha]
      have hrest := coalescerRun_empty_quiet t.now ts hq'
      simp [coalescerRun, hstep, hrest, coalescerShutdownFlush]

/-- Running the loop over a concatenation of iteration sequences. -/
theorem coalescerRun_append (st : CoalescerState) (xs ys : List Tick) :
    coalescerRun st (xs ++ ys)
      = ((coalescerRun (coalescerRun st xs).1 ys).1,
         (coalescerRun st xs).2 ++ (coalescerRun (coalescerRun st xs).1 ys).2) := by
  induction xs generalizing st with
  | nil => simp [coalescerRun]
  | cons t ts ih => simp [coalescerRun, ih]

/-- Fragment count over a concatenation of iteration sequences. -/
theorem fragCount_append (xs ys : List Tick) :
    fragCount (xs ++ ys) = fragCount xs + fragCount ys := by
  simp [fragCount, fragments]

/-- C2 (amended): the concatenation of the byte batches the coalescer
hands to the writer queue always equals the concatenation of the
submitted fragments, in submission order; and when N ≥ 2 fragments whose
total size stays within the 1 KiB threshold all arrive within one flush
interval of the worker's start, and nothing further is submitted
afterwards, strictly fewer than N batches are produced (at most one).
The original claim's "strictly fewer than N" fails without the size
restriction: a fragment larger than the threshold triggers an immediate
size flush, so N such fragments yield N batches (see the
counterexample). -/
theorem coalescer_batches :
    (∀ (t0 : Nat) (ticks : List Tick),
      (coalescerOutputs t0 ticks).flatten = fragConcat ticks) ∧
    (∀ (t0 : Nat) (w rest : List Tick),
      (∀ t ∈ w, t.now ≤ t0 + flushInterval) →
      (fragConcat w).length ≤ sizeThreshold →
      (∀ t ∈ rest, t.arrivals = []) →
      2 ≤ fragCount (w ++ rest) →
      (coalescerOutputs t0 (w ++ rest)).length < fragCount (w ++ rest)) := by
  constructor
  · exact coalescerOutputs_flatten
  · intro t0 w rest hw hs hq hN
    have hrunw := coalescerRun_window t0 [] w hw (by simpa using hs)
    have hquiet := coalescerRun_quiet_le_one (fragConcat w) t0 rest hq
    have happ := coalescerRun_append ⟨[], t0⟩ w rest
    rw [hrunw] at happ
    simp only [coalescerOutputs, happ, List.nil_append, List.length_append]
    omega

/-- A fragment of 1025 bytes, one byte over the size threshold. -/
def bigFragment : List Nat := List.replicate 1025 0

/-- Two iterations 10 ms apart, each draining one just-submitted
1025-byte fragment; both submissions fall well inside one 100 ms flush
interval of the worker's start at time 0. -/
def cexTicks : List Tick := [⟨[bigFragment], 10⟩, ⟨[bigFragment], 20⟩]

set_option maxRecDepth 10000 in
/-- Counterexample to C2 as stated: two fragments submitted 10 ms apart
— far faster than the 100 ms flush interval — produce two batches, not
strictly fewer than two, because each 1025-byte fragment trips the
1 KiB size flush immediately (ssh_new.rs line 169). -/
theorem coalescer_batches_cex :
    fragCount cexTicks = 2 ∧
    (∀ t ∈ cexTicks, t.now ≤ 0 + flushInterval) ∧
    ¬ ((coalescerOutputs 0 cexTicks).length < fragCount cexTicks) := by
  decide

/-- Witness for C2: two one-byte fragments drained 10 ms after start;
the batches concatenate to the submitted bytes and number strictly fewer
than the fragments (one batch, at shutdown). -/
theorem coalescer_batches_witness :
    (coalescerOutputs 0 [⟨[[97], [98]], 10⟩]).flatten
        = fragConcat [⟨[[97], [98]], 10⟩] ∧
    (coalescerOutputs 0 ([⟨[[97], [98]], 10⟩] ++ [])).length
        < fragCount ([⟨[[97], [98]], 10⟩] ++ []) :=
  ⟨coalescer_batches.1 0 [⟨[[97], [98]], 10⟩],
   coalescer_batches.2 0 [⟨[[97], [98]], 10⟩] []
     (by decide) (by decide) (by decide) (by decide)⟩

/-- In every state the loop can reach, the buffer left from previous
iterations is within the size threshold: a drain that pushes it past the
threshold flushes it in the same iteration. -/
theorem coalescerRun_buffer_le (st : CoalescerState) (ticks : List Tick)
    (h : st.buffer.length ≤ sizeThreshold) :
    (coalescerRun st ticks).1.buffer.length ≤ sizeThreshold := by
  induction ticks generalizing st with
  | nil => exact h
  | cons t ts ih =>
    simp only [coalescerRun]
    apply ih
    cases hcond : codeFlushCond st t with
    | true => simp [coalescerStep, hcond]
    | false =>
      simp only [coalescerStep, hcond, Bool.false_eq_true, if_false]
      simp only [codeFlushCond, Bool.or_eq_false_iff, Bool.and_eq_false_iff] at hcond
      rcases ha : t.arrivals with _ | ⟨a, as⟩
      · simpa [ha] using h
      · rcases hcond.2 with h2 | h2
        · rw [ha] at h2
          simp at h2
        · have h2' := of_decide_eq_false h2
          rw [ha] at h2'
          simpa using Nat.le_of_not_lt h2'

/-- On a buffer within the threshold — in particular on any reachable
loop state — the source's flush condition coincides with the
specification's: the `received_any &&` guard on the size clause cannot
make a difference, because a buffer past the threshold can only have got
there through this iteration's drain. -/
theorem codeFlushCond_eq_spec (st : CoalescerState) (t : Tick)
    (h : st.buffer.length ≤ sizeThreshold) :
    codeFlushCond st t = specFlushCond st t := by
  simp only [codeFlushCond, specFlushCond]
  rcases ha : t.arrivals with _ | ⟨a, as⟩
  · simp only [List.flatten_nil, List.append_nil, List.isEmpty_nil, Bool.not_true,
      Bool.false_and, Bool.or_false]
    have hd : decide (st.buffer.length > sizeThreshold) = false := decide_eq_false (by omega)
    rw [hd, Bool.or_false]
  · simp only [List.isEmpty_cons, Bool.not_false, Bool.true_and]

/-- C3: at every state the coalescer loop can reach, an iteration
flushes (hands the writer queue a batch) exactly when either (a) the
post-drain buffer is non-empty and more than one flush interval (the
source's strict reading of "~100 ms") has elapsed since the last flush,
or (b) the buffer has grown past the 1 KiB size threshold, regardless of
elapsed time (ssh_new.rs lines 167-178).  The source guards clause (b)
with `received_any`, but on reachable states that guard is redundant:
a carried-over buffer never exceeds the threshold. -/
theorem coalescer_flush_exactly_when (t0 : Nat) (ticks : List Tick) (t : Tick) :
    (coalescerStep ((coalescerRun ⟨[], t0⟩ ticks).1) t).2 ≠ [] ↔
      specFlushCond ((coalescerRun ⟨[], t0⟩ ticks).1) t = true := by
  have hinv := coalescerRun_buffer_le ⟨[], t0⟩ ticks (by simp)
  rw [← codeFlushCond_eq_spec _ _ hinv]
  cases hcond : codeFlushCond ((coalescerRun ⟨[], t0⟩ ticks).1) t <;>
    simp [coalescerStep, hcond]

/-! ### Authenticator fallback chain -/

/-- When every public-key attempt fails, the fallback loop attempts
exactly the existing candidate paths, in order, and fails. -/
theorem tryFallbackKeys_all_fail (env : AuthEnv)
    (hfail : ∀ k, env.attemptOk (AuthAttempt.pubkeyFile none k none) = false)
    (ks : List String) :
    tryFallbackKeys env ks
      = ((ks.filter env.fileExists).map fun k => AuthAttempt.pubkeyFile none k none,
         false) := by
  induction ks with
  | nil => rfl
  | cons k ks ih =>
    cases he : env.fileExists k with
    | true => simp [tryFallbackKeys, he, hfail k, ih, List.filter_cons]
    | false => simp [tryFallbackKeys, he, ih, List.filter_cons]

/-- C7: for a `PublicKey` connect whose (tilde-expanded) key file does
not exist on disk, the engine's authenticator (`SshManager::connect` in
ssh.rs, `AuthMethod::PublicKey` arm) makes no attempt with the missing
file, then attempts SSH-agent authentication, then the conventional keys
`id_rsa`, `id_ecdsa`, `id_ed25519` under `$HOME/.ssh` in exactly that
order, skipping paths that do not exist, and fails only after all of
them (ssh.rs lines 119-359). -/
theorem auth_fallback_order (env : AuthEnv) (home keyPath : String)
    (hmiss : env.fileExists (expandTilde home keyPath) = false)
    (hagent : env.attemptOk AuthAttempt.agent = false)
    (hfail : ∀ k, env.attemptOk (AuthAttempt.pubkeyFile none k none) = false) :
    publicKeyAuth env home keyPath
      = (AuthAttempt.agent ::
          (((conventionalKeys home).filter env.fileExists).map fun k =>
            AuthAttempt.pubkeyFile none k none),
         false) := by
  simp [publicKeyAuth, hmiss, hagent, tryFallbackKeys_all_fail env hfail]

/-- An environment in which only `~/.ssh/id_ecdsa` exists and the server
rejects every authentication attempt. -/
def fbEnv : AuthEnv :=
  ⟨fun s => s == "/h/.ssh/id_ecdsa", fun _ => false⟩

/-- Witness for C7: with only `id_ecdsa` on disk and every attempt
rejected, a connect configured with the missing key `~/nokey` tries the
agent, then `id_ecdsa` alone (skipping the missing `id_rsa` and
`id_ed25519`), and fails. -/
theorem auth_fallback_order_witness :
    publicKeyAuth fbEnv "/h" "~/nokey"
      = (AuthAttempt.agent :: [AuthAttempt.pubkeyFile none "/h/.ssh/id_ecdsa" none],
         false) := by
  rw [auth_fallback_order fbEnv "/h" "~/nokey" (by decide) rfl (fun k => rfl)]
  decide

/-! ### SFTP directory listing sort -/

/-- The comparator relation spelled out: `a` may precede `b` exactly
when `a` is a directory and `b` is not, or they are in the same group
and `a`'s name is no greater. -/
theorem fileLe_iff (a b : FileInfo) :
    fileLe a b ↔
      (a.is_directory = true ∧ b.is_directory = false) ∨
        (a.is_directory = b.is_directory ∧ a.name ≤ b.name) := by
  have hstr : ∀ x y : String, (strCmp x y ≠ Ordering.gt) ↔ x ≤ y := by
    intro x y
    unfold strCmp
    rcases lt_trichotomy x y with hlt | heq | hgt
    · simp [hlt, le_of_lt hlt]
    · simp [heq]
    · simp [hgt.not_lt, hgt.ne', not_le.mpr hgt]
  unfold fileLe fileCmp
  cases ha : a.is_directory <;> cases hb : b.is_directory <;> simp [hstr]

instance : IsTotal FileInfo fileLe where
  total a b := by
    rw [fileLe_iff, fileLe_iff]
    rcases le_total a.name b.name with hn | hn <;>
      cases ha : a.is_directory <;> cases hb : b.is_directory <;> simp [hn]

instance : IsTrans FileInfo fileLe where
  trans a b c hab hbc := by
    rw [fileLe_iff] at hab hbc ⊢
    rcases hab with ⟨ha, hb⟩ | ⟨hab', hnab⟩ <;>
      rcases hbc with ⟨hb', hc⟩ | ⟨hbc', hnbc⟩
    · exact absurd hb' (by simp [hb])
    · exact Or.inl ⟨ha, hbc'.symm.trans hb⟩
    · exact Or.inl ⟨hab'.trans hb', hc⟩
    · exact Or.inr ⟨hab'.trans hbc', le_trans hnab hnbc⟩

/-- C10: every listing `SftpClient::list_directory` returns is a
permutation of the collected entries in which, for every pair of entries
in output order, either the earlier is a directory and the later is not,
or both are in the same group (directory / non-directory) and their
names are in ascending order — that is, all directories come first and
each group is name-sorted (sftp.rs lines 60-69; Rust's stable `sort_by`
is embedded as a stable sort over the comparator). -/
theorem list_directory_sort_order (files : List FileInfo) :
    (sortEntries files).Perm files ∧
    (sortEntries files).Pairwise (fun a b =>
      (a.is_directory = true ∧ b.is_directory = false) ∨
        (a.is_directory = b.is_directory ∧ a.name ≤ b.name)) := by
  constructor
  · exact List.perm_insertionSort fileLe files
  · exact (List.sorted_insertionSort fileLe files).imp fun hab => (fileLe_iff _ _).mp hab

end TermNest

